import Mathlib

/-!
Verification development for the Security Incident Dashboard (src/app.py).

The dashboard loads a table of incident records, narrows it through four
sequential filters (severity multiselect, affected-system select box,
resolution radio, free-text search), computes KPI metrics, two aggregate
views, a CSV export and a textual summary.  This file gives a shallow
embedding of that logic: a snapshot is a `List Record`, every pandas
operation used by the source is translated into an executable Lean
function, and the stated properties are settled as theorems below the
definitions.

Modelling conventions:
* machine text is `List Char` / `String` (Lean 4.14 strings are lists of
  characters, so all functions are kernel-executable);
* numeric columns (`confidence_score`, `response_time_minutes`) are
  modelled as naturals, means are exact rationals, and pandas' `NaN`
  result for a mean over an empty column is modelled as `Option.none`;
* Python's `str.lower` is modelled on the ASCII range, which covers the
  data the dashboard handles.
-/

set_option linter.unusedVariables false

/-- ASCII lowercasing of one character, modelling Python's `str.lower`
on the ASCII range. -/
def lowerChar (c : Char) : Char :=
  if 'A' ≤ c ∧ c ≤ 'Z' then Char.ofNat (c.toNat + 32) else c

/-- Lowercase a character list. -/
def lowerChars (s : List Char) : List Char := s.map lowerChar

/-- Does `needle` occur at the very start of `hay`? -/
def startsWith : List Char → List Char → Bool
  | [], _ => true
  | _ :: _, [] => false
  | a :: as, b :: bs => a == b && startsWith as bs

/-- Python's substring test `needle in hay`. -/
def isSubChars (needle hay : List Char) : Bool :=
  match hay with
  | [] => needle.isEmpty
  | c :: t => startsWith needle (c :: t) || isSubChars needle t

/-- The decimal digit character for `d` (`d ≤ 9`; larger inputs clamp to `'9'`). -/
def digitChar (d : ℕ) : Char :=
  if d = 0 then '0' else if d = 1 then '1' else if d = 2 then '2' else if d = 3 then '3'
  else if d = 4 then '4' else if d = 5 then '5' else if d = 6 then '6' else if d = 7 then '7'
  else if d = 8 then '8' else '9'

/-- The numeric value of a decimal digit character. -/
def digitVal (c : Char) : Option ℕ :=
  if 48 ≤ c.toNat ∧ c.toNat ≤ 57 then some (c.toNat - 48) else none

/-- Structural worker for decimal rendering; the fuel strictly bounds the
argument, so the fuel `n + 1` of `natChars` below is always enough. -/
def natCharsAux : ℕ → ℕ → List Char
  | 0, _ => []
  | fuel + 1, n =>
    if n < 10 then [digitChar n]
    else natCharsAux fuel (n / 10) ++ [digitChar (n % 10)]

/-- Canonical decimal rendering of a natural number (as Python's `str`). -/
def natChars (n : ℕ) : List Char := natCharsAux (n + 1) n

/-- Canonical decimal rendering, packaged as a string. -/
def natStr (n : ℕ) : String := String.mk (natChars n)

/-- One step of decimal parsing: extend an accumulator with one digit. -/
def digitStep (acc : Option ℕ) (c : Char) : Option ℕ :=
  acc.bind (fun n => (digitVal c).map (fun d => 10 * n + d))

/-- Parse a non-empty decimal digit sequence back to a natural number. -/
def natParse (cs : List Char) : Option ℕ :=
  if cs.isEmpty then none else cs.foldl digitStep (some 0)

/-- Canonical rendering of a boolean, as pandas prints `True` / `False`. -/
def boolStr (b : Bool) : String := if b then "True" else "False"

/-- Parse the canonical boolean rendering back. -/
def parseBool (cs : List Char) : Option Bool :=
  if cs = "True".data then some true
  else if cs = "False".data then some false else none

/-- Structural worker for `firstKeys`; the fuel bounds the list length. -/
def firstKeysAux {α : Type} [DecidableEq α] : ℕ → List α → List α
  | _, [] => []
  | 0, _ :: _ => []
  | fuel + 1, a :: l => a :: firstKeysAux fuel (l.filter (fun b => b != a))

/-- Distinct values of a list in order of first appearance: the model of
`pandas.Series.unique` (and of the key order `groupby` produces for object
keys).  The list's own length is always enough fuel, since each step
recurses on a filtered (hence no longer) tail. -/
def firstKeys {α : Type} [DecidableEq α] (l : List α) : List α :=
  firstKeysAux l.length l

/-- One incident record: the canonical columns of the dashboard's table
(`dataset2_threat_detection.csv`), with one identifying free-form column
(`source_ip`) standing for the extra host / address fields that only
participate in text search. -/
structure Record where
  timestamp : String
  date : String
  hour : ℕ
  severity : String
  affected_system : String
  threat_type : String
  confidence_score : ℕ
  response_time_minutes : ℕ
  is_resolved : Bool
  source_ip : String
deriving DecidableEq

/-- The Record Store's canonical column order. -/
def fieldNames : List String :=
  ["timestamp", "date", "hour", "severity", "affected_system", "threat_type",
   "confidence_score", "response_time_minutes", "is_resolved", "source_ip"]

/-- Canonical string rendering of every field of a record, in canonical
column order (numbers and booleans rendered canonically). -/
def renderFields (r : Record) : List String :=
  [r.timestamp, r.date, natStr r.hour, r.severity, r.affected_system, r.threat_type,
   natStr r.confidence_score, natStr r.response_time_minutes,
   boolStr r.is_resolved, r.source_ip]

/-- Column names paired with rendered values. -/
def fieldPairs (r : Record) : List (String × String) := fieldNames.zip (renderFields r)

/-- The model of Python's `str(row)` for one row of `DataFrame.apply(axis=1)`:
pandas renders the row as a Series — one `name value` line per field followed
by a `dtype: object` footer.  The exact alignment padding and the `Name:`
index label of the real repr are abstracted to a fixed separator; what
matters for the properties below is that the rendering contains the field
NAMES and footer text, not just the field values. -/
def strRowChars (r : Record) : List Char :=
  (fieldPairs r).foldr
    (fun p acc => p.1.data ++ "    ".data ++ p.2.data ++ '\n' :: acc)
    "dtype: object".data

/-- The search predicate of src/app.py line 76:
`search_query.lower() in str(row).lower()`. -/
def searchHit (q : String) (r : Record) : Bool :=
  isSubChars (lowerChars q.data) (lowerChars (strRowChars r))

/-- Modelled from the spec's words (refinement comparison for the search
claim): keep a record when the lowercase query is a substring of the
lowercase string-rendering of at least ONE field of the record. -/
def specFieldMatch (q : String) (r : Record) : Bool :=
  (renderFields r).any (fun v => isSubChars (lowerChars q.data) (lowerChars v.data))

/-- The state of the four filter widgets. -/
structure Criteria where
  severity_choice : List String
  system_choice : String
  status_choice : String
  search_query : String
deriving DecidableEq

/-- Line 66 of src/app.py: `df[df['severity'].isin(severity_choice)]`. -/
def severityFilter (c : Criteria) (df : List Record) : List Record :=
  df.filter (fun r => c.severity_choice.contains r.severity)

/-- Lines 67–68 of src/app.py: affected-system equality, guarded by the
`"All Systems"` sentinel. -/
def systemFilter (c : Criteria) (l : List Record) : List Record :=
  if c.system_choice = "All Systems" then l
  else l.filter (fun r => r.affected_system == c.system_choice)

/-- Lines 69–72 of src/app.py: the resolution radio. -/
def statusFilter (c : Criteria) (l : List Record) : List Record :=
  if c.status_choice = "Resolved" then l.filter (fun r => r.is_resolved == true)
  else if c.status_choice = "Pending" then l.filter (fun r => r.is_resolved == false)
  else l

/-- Lines 66–73 of src/app.py: the three structured filters, applied in the
source's order. -/
def preFilter (df : List Record) (c : Criteria) : List Record :=
  statusFilter c (systemFilter c (severityFilter c df))

/-- The full filtering logic of src/app.py lines 66–76: the three structured
filters followed by the free-text search (a no-op for the empty query, since
`if search_query:` is falsy on `""`). -/
def applyFilter (df : List Record) (c : Criteria) : List Record :=
  if c.search_query = "" then preFilter df c
  else (preFilter df c).filter (fun r => searchHit c.search_query r)

/-- The widgets' default state: every distinct severity selected (the
multiselect defaults to `df['severity'].unique()`), the `"All Systems"`
sentinel, the `"All"` radio choice and an empty query. -/
def defaultCriteria (df : List Record) : Criteria :=
  ⟨firstKeys (df.map (fun r => r.severity)), "All Systems", "All", ""⟩

/-- Distinct calendar dates of the unfiltered snapshot (`df['date'].unique()`). -/
def distinctDates (df : List Record) : List String :=
  firstKeys (df.map (fun r => r.date))

/-- Line 84 of src/app.py:
`len(df) / len(df['date'].unique()) if len(df['date'].unique()) > 0 else 0`. -/
def avg_count (df : List Record) : ℚ :=
  if 0 < (distinctDates df).length
  then (df.length : ℚ) / ((distinctDates df).length : ℚ) else 0

/-- Python's `int()` conversion: truncation toward zero. -/
def pyInt (q : ℚ) : ℤ := if 0 ≤ q then ⌊q⌋ else -⌊-q⌋

/-- The numeric part of the `Selected Events` delta on line 87:
`current_count - int(avg_count)`. -/
def deltaVal (df sub : List Record) : ℤ := (sub.length : ℤ) - pyInt (avg_count df)

/-- Count of `Critical` records in the subset (line 88). -/
def criticalCount (sub : List Record) : ℕ :=
  (sub.filter (fun r => r.severity == "Critical")).length

/-- Pandas `Series.mean`: `NaN` (modelled as `none`) over an empty column,
otherwise the exact arithmetic mean. -/
def pandasMean (xs : List ℚ) : Option ℚ :=
  if xs.isEmpty then none else some (xs.sum / (xs.length : ℚ))

/-- Fixed one-decimal rendering of a rational, standing in for Python's
`.1f` format of the float mean. -/
def fmtFixed1 (q : ℚ) : String :=
  toString (round (10 * q) / 10) ++ "." ++ (round (10 * q) % 10).natAbs.repr

/-- Line 89 of src/app.py: `f"{filt_df['confidence_score'].mean():.1f}%"`.
Python formats the float `nan` as the text `nan`. -/
def avgConfidenceText (sub : List Record) : String :=
  match pandasMean (sub.map (fun r => (r.confidence_score : ℚ))) with
  | none => "nan%"
  | some q => fmtFixed1 q ++ "%"

/-- Line 90 of src/app.py: `f"{filt_df['response_time_minutes'].mean():.1f}m"`. -/
def avgMitigationText (sub : List Record) : String :=
  match pandasMean (sub.map (fun r => (r.response_time_minutes : ℚ))) with
  | none => "nanm"
  | some q => fmtFixed1 q ++ "m"

/-- The model of `Series.value_counts()`: occurrence counts per distinct
value, keyed in order of first appearance.  The real pandas call also sorts
the counts descending with a stable tie order, which composed with `idxmax`
(label of the FIRST occurrence of the maximum) yields the first-appearing
key of maximal count — exactly what `idxmax?` below extracts from the
unsorted counts, so the sort is dropped from the model. -/
def value_counts {α : Type} [DecidableEq α] (l : List α) : List (α × ℕ) :=
  (firstKeys l).map (fun k => (k, l.count k))

/-- The model of `Series.idxmax`: the key of the first entry holding the
maximal count. -/
def idxmax? {α : Type} [DecidableEq α] (cs : List (α × ℕ)) : Option α :=
  (cs.find? (fun p => cs.all (fun q => decide (q.2 ≤ p.2)))).map Prod.fst

/-- Line 136 of src/app.py: `filt_df['threat_type'].value_counts().idxmax()`. -/
def top_threat (sub : List Record) : Option String :=
  idxmax? (value_counts (sub.map (fun r => r.threat_type)))

/-- Modelled from the spec's words (refinement comparison for the summary
claim): the mode of a list — the category with the highest count, ties
broken by the first-encountered category in the list's order. -/
def specMode {α : Type} [DecidableEq α] (l : List α) : Option α :=
  l.find? (fun k => l.all (fun j => decide (l.count j ≤ l.count k)))

/-- The texts of the conclusion section, lines 134–138 of src/app.py. -/
def summaryText (sub : List Record) : String :=
  if 0 < sub.length then
    match top_threat sub with
    | some t => "**Automated Summary:** The primary threat vector currently identified is **"
        ++ t ++ "**. We recommend immediate audit of logs associated with this activity."
    | none => ""
  else "No incidents match the selected filters. System appears clear."

/-- Insert into an ascending list, keeping it ascending. -/
def insertAsc (h : ℕ) : List ℕ → List ℕ
  | [] => [h]
  | x :: xs => if h ≤ x then h :: x :: xs else x :: insertAsc h xs

/-- Ascending sort (insertion sort). -/
def sortAsc (l : List ℕ) : List ℕ := l.foldr insertAsc []

/-- Line 109 of src/app.py: `filt_df.groupby('hour').size()` — counts per
observed hour value, ascending by hour. -/
def hourSeries (sub : List Record) : List (ℕ × ℕ) :=
  (sortAsc (firstKeys (sub.map (fun r => r.hour)))).map
    (fun h => (h, (sub.map (fun r => r.hour)).count h))

/-- Is the character one of the four that force CSV quoting? -/
def csvSpecial (c : Char) : Bool := c == ',' || c == '"' || c == '\n' || c == '\r'

/-- Does a field need quoting under `csv.QUOTE_MINIMAL`, the `to_csv` default? -/
def csvNeedsQuote (s : List Char) : Bool := s.any csvSpecial

/-- Double every quote character, the CSV escaping rule. -/
def csvEscape : List Char → List Char
  | [] => []
  | c :: cs => if c = '"' then '"' :: '"' :: csvEscape cs else c :: csvEscape cs

/-- Encode one field: quoted with doubled inner quotes when needed, plain
otherwise (pandas `to_csv` with default minimal quoting). -/
def csvField (s : List Char) : List Char :=
  if csvNeedsQuote s then '"' :: (csvEscape s ++ ['"']) else s

/-- Encode one row: fields joined by commas. -/
def csvRow : List (List Char) → List Char
  | [] => []
  | [f] => csvField f
  | f :: fs => csvField f ++ ',' :: csvRow fs

/-- Encode a table: each row terminated by a newline, as
`to_csv(index=False)` produces. -/
def csvTable : List (List (List Char)) → List Char
  | [] => []
  | r :: rs => csvRow r ++ '\n' :: csvTable rs

/-- Parse the body of a quoted field (the text after the opening quote):
doubled quotes decode to one quote, a lone quote closes the field. -/
def parseQuotedField : List Char → Option (List Char × List Char)
  | [] => none
  | c :: cs =>
    if c = '"' then
      match cs with
      | c2 :: cs2 =>
        if c2 = '"' then (parseQuotedField cs2).map (fun p => ('"' :: p.1, p.2))
        else some ([], c2 :: cs2)
      | [] => some ([], [])
    else (parseQuotedField cs).map (fun p => (c :: p.1, p.2))

/-- Parse an unquoted field: take characters up to the next separator. -/
def parseRawField : List Char → List Char × List Char
  | [] => ([], [])
  | c :: cs =>
    if c = ',' ∨ c = '\n' then ([], c :: cs)
    else
      let p := parseRawField cs
      (c :: p.1, p.2)

/-- Parse one field, dispatching on an opening quote. -/
def parseField (cs : List Char) : Option (List Char × List Char) :=
  match cs with
  | [] => some ([], [])
  | c :: rest => if c = '"' then parseQuotedField rest else some (parseRawField (c :: rest))

/-- Parse the comma-separated fields of one row (fuel bounds the number of
fields). -/
def parseFieldsAux : ℕ → List Char → Option (List (List Char) × List Char)
  | 0, _ => none
  | fuel + 1, cs =>
    (parseField cs).bind (fun p =>
      match p.2 with
      | ',' :: rest2 => (parseFieldsAux fuel rest2).map (fun q => (p.1 :: q.1, q.2))
      | _ => some ([p.1], p.2))

/-- Parse newline-terminated rows (fuel bounds the number of rows). -/
def parseRowsAux : ℕ → List Char → Option (List (List (List Char)))
  | 0, cs => if cs.isEmpty then some [] else none
  | fuel + 1, cs =>
    if cs.isEmpty then some []
    else
      (parseFieldsAux (cs.length + 1) cs).bind (fun p =>
        match p.2 with
        | '\n' :: rest => (parseRowsAux fuel rest).map (fun rs => p.1 :: rs)
        | _ => none)

/-- Parse an exported CSV text into its rows of fields. -/
def parseCsvRows (s : String) : Option (List (List (List Char))) :=
  parseRowsAux (s.data.length + 1) s.data

/-- The canonical header row. -/
def canonicalHeader : List (List Char) := fieldNames.map String.data

/-- One record rendered as a row of character-list fields. -/
def renderRow (r : Record) : List (List Char) := (renderFields r).map String.data

/-- Line 116 of src/app.py: `filt_df.to_csv(index=False).encode('utf-8')` —
one header row in canonical column order, then one row per record in the
subset's order. -/
def encodeCsv (subset : List Record) : String :=
  String.mk (csvTable (canonicalHeader :: subset.map renderRow))

/-- Decode one parsed row of fields back into a typed record under the
column contract. -/
def decodeRow : List (List Char) → Option Record
  | [ts, d, h, sev, sys, tt, conf, resp, res, ip] =>
    match natParse h, natParse conf, natParse resp, parseBool res with
    | some hh, some cc, some rr, some bb =>
      some ⟨String.mk ts, String.mk d, hh, String.mk sev, String.mk sys, String.mk tt,
            cc, rr, bb, String.mk ip⟩
    | _, _, _, _ => none
  | _ => none

/-- Decode a list of parsed rows. -/
def decodeRows : List (List (List Char)) → Option (List Record)
  | [] => some []
  | fs :: rest =>
    (decodeRow fs).bind (fun r => (decodeRows rest).map (fun rs => r :: rs))

/-- Re-parse exported bytes under the same column contract: check the
header, then decode every data row. -/
def decodeCsv (s : String) : Option (List Record) :=
  match parseCsvRows s with
  | some (hdr :: rows) => if hdr = canonicalHeader then decodeRows rows else none
  | _ => none

/-- Everything one rerun of the script derives from the snapshot and the
widget state.  The source never mutates `df`: every pandas call it makes
(boolean-mask selection, `mean`, `groupby`, `value_counts`, `to_csv`,
`style`) returns a new object, so the record store the next stage sees is
the one produced at load time, carried through here as `snapshot`. -/
structure DashboardOutput where
  snapshot : List Record
  filtered : List Record
  selectedEvents : ℕ
  deltaText : String
  criticalPoints : ℕ
  avgConfidence : String
  avgMitigation : String
  pieData : List (String × ℕ)
  lineData : List (ℕ × ℕ)
  csv : String
  tableView : List Record
  summary : String

/-- One full run of the dashboard body (lines 48–138 of src/app.py) as a
pure function of the loaded snapshot and the widget state. -/
def runDashboard (df : List Record) (c : Criteria) : DashboardOutput :=
  let filt := applyFilter df c
  { snapshot := df
    filtered := filt
    selectedEvents := filt.length
    deltaText := toString (deltaVal df filt) ++ " vs Avg"
    criticalPoints := criticalCount filt
    avgConfidence := avgConfidenceText filt
    avgMitigation := avgMitigationText filt
    pieData := value_counts (filt.map (fun r => r.threat_type))
    lineData := hourSeries filt
    csv := encodeCsv filt
    tableView := filt
    summary := summaryText filt }

/-- A concrete incident record used by the concrete-input theorems. -/
def exRecord : Record :=
  ⟨"2024-01-05 13:00:00", "2024-01-05", 13, "High", "Mail Server", "Phishing",
   91, 35, true, "10.0.0.8"⟩

/-- A record template for the ten-record scenario. -/
def mkRec (date sev : String) : Record :=
  ⟨"2024-01-01 00:00:00", date, 0, sev, "Web Server", "Malware", 50, 10, true, "192.168.1.1"⟩

/-- Ten records over two distinct dates (five per date), three of them of
severity `High`: the spec's concrete delta scenario. -/
def exSnapshot10 : List Record :=
  [mkRec "2024-01-01" "High", mkRec "2024-01-01" "High", mkRec "2024-01-01" "High",
   mkRec "2024-01-01" "Low", mkRec "2024-01-01" "Low",
   mkRec "2024-01-02" "Low", mkRec "2024-01-02" "Low", mkRec "2024-01-02" "Low",
   mkRec "2024-01-02" "Medium", mkRec "2024-01-02" "Medium"]

/-- Criteria selecting only the `High` records. -/
def exCritHigh : Criteria := ⟨["High"], "All Systems", "All", ""⟩

/-- Criteria with the free-text query `severity` and no other restriction. -/
def exCritQuery : Criteria := ⟨["High"], "All Systems", "All", "severity"⟩

/-- Criteria with an empty severity selection. -/
def exCritEmptySev : Criteria := ⟨[], "All Systems", "All", ""⟩

/-! ### Helper lemmas about `firstKeys` -/

theorem firstKeysAux_congr {α : Type} [DecidableEq α] :
    ∀ (m n : ℕ) (l : List α), l.length ≤ m → l.length ≤ n →
      firstKeysAux m l = firstKeysAux n l := by
  intro m
  induction m with
  | zero =>
    intro n l hm hn
    have hnil : l = [] := List.eq_nil_of_length_eq_zero (Nat.le_zero.mp hm)
    subst hnil
    cases n <;> rfl
  | succ m ih =>
    intro n l hm hn
    cases l with
    | nil => cases n <;> rfl
    | cons a t =>
      cases n with
      | zero => simp at hn
      | succ n =>
        show a :: firstKeysAux m (t.filter fun b => b != a)
            = a :: firstKeysAux n (t.filter fun b => b != a)
        have hlen := List.length_filter_le (fun b => b != a) t
        rw [ih n (t.filter fun b => b != a)
          (le_trans hlen (Nat.le_of_succ_le_succ hm))
          (le_trans hlen (Nat.le_of_succ_le_succ hn))]

theorem firstKeys_cons {α : Type} [DecidableEq α] (a : α) (l : List α) :
    firstKeys (a :: l) = a :: firstKeys (l.filter (fun b => b != a)) := by
  show a :: firstKeysAux l.length (l.filter fun b => b != a)
      = a :: firstKeysAux (l.filter fun b => b != a).length (l.filter fun b => b != a)
  rw [firstKeysAux_congr l.length (l.filter fun b => b != a).length
    (l.filter fun b => b != a) (List.length_filter_le _ _) le_rfl]

theorem mem_firstKeys_aux {α : Type} [DecidableEq α] (a : α) :
    ∀ (n : ℕ) (l : List α), l.length ≤ n → (a ∈ firstKeys l ↔ a ∈ l) := by
  intro n
  induction n with
  | zero =>
    intro l hl
    have : l = [] := List.eq_nil_of_length_eq_zero (Nat.le_zero.mp hl)
    subst this; rfl
  | succ n ih =>
    intro l hl
    cases l with
    | nil => rfl
    | cons b t =>
      rw [firstKeys_cons, List.mem_cons,
        ih (t.filter (fun x => x != b))
          (le_trans (List.length_filter_le _ _) (Nat.le_of_succ_le_succ hl)),
        List.mem_cons]
      by_cases hab : a = b
      · simp [hab]
      · simp [List.mem_filter, hab]

theorem mem_firstKeys {α : Type} [DecidableEq α] (a : α) (l : List α) :
    a ∈ firstKeys l ↔ a ∈ l :=
  mem_firstKeys_aux a l.length l le_rfl

theorem firstKeys_eq_nil_iff {α : Type} [DecidableEq α] (l : List α) :
    firstKeys l = [] ↔ l = [] := by
  cases l with
  | nil => simp [firstKeys, firstKeysAux]
  | cons a t => rw [firstKeys_cons]; simp

theorem statusFilter_nil (c : Criteria) : statusFilter c [] = [] := by
  unfold statusFilter
  split
  · simp
  · split <;> simp

theorem systemFilter_nil (c : Criteria) : systemFilter c [] = [] := by
  unfold systemFilter; split <;> simp

/-! ### Claim theorems (first batch) -/

/-- C3: for every snapshot and every setting of the system, resolution and
query criteria, filtering with an empty severities set yields an empty
subset — `isin([])` keeps nothing and every later stage preserves
emptiness. -/
theorem empty_severities_give_empty_subset (df : List Record) (c : Criteria)
    (h : c.severity_choice = []) : applyFilter df c = [] := by
  have h1 : severityFilter c df = [] := by
    simp [severityFilter, h]
  have h3 : preFilter df c = [] := by
    unfold preFilter
    rw [h1, systemFilter_nil, statusFilter_nil]
  unfold applyFilter
  rw [h3]
  split <;> simp

/-- Witness for C3 at a concrete snapshot and criteria. -/
theorem empty_severities_witness :
    exCritEmptySev.severity_choice = [] ∧ applyFilter [exRecord] exCritEmptySev = [] :=
  ⟨rfl, empty_severities_give_empty_subset [exRecord] exCritEmptySev rfl⟩

/-- C7: filtering with the widgets' default criteria (every distinct
severity selected, the `"All Systems"` sentinel, the `"All"` resolution and
an empty query) returns the full snapshot. -/
theorem default_criteria_full_snapshot (df : List Record) :
    applyFilter df (defaultCriteria df) = df := by
  have hsev : severityFilter (defaultCriteria df) df = df := by
    unfold severityFilter
    rw [List.filter_eq_self]
    intro r hr
    have hmem : r.severity ∈ (defaultCriteria df).severity_choice := by
      show r.severity ∈ firstKeys (df.map (fun r => r.severity))
      rw [mem_firstKeys]
      exact List.mem_map_of_mem _ hr
    simpa using hmem
  unfold applyFilter
  rw [if_pos (show (defaultCriteria df).search_query = "" from rfl)]
  unfold preFilter
  rw [hsev]
  unfold systemFilter
  rw [if_pos (show (defaultCriteria df).system_choice = "All Systems" from rfl)]
  unfold statusFilter
  have h1 : ¬ (defaultCriteria df).status_choice = "Resolved" := by
    show ¬ ("All" : String) = "Resolved"; decide
  have h2 : ¬ (defaultCriteria df).status_choice = "Pending" := by
    show ¬ ("All" : String) = "Pending"; decide
  rw [if_neg h1, if_neg h2]

/-- C8: the filtered subset is a sub-sequence of the snapshot — every stage
is a boolean-mask `filter`, which never reorders. -/
theorem filtering_preserves_order (df : List Record) (c : Criteria) :
    (applyFilter df c).Sublist df := by
  have h1 : (severityFilter c df).Sublist df := List.filter_sublist _
  have h2 : (systemFilter c (severityFilter c df)).Sublist df := by
    unfold systemFilter
    split
    · exact h1
    · exact (List.filter_sublist _).trans h1
  have h3 : (preFilter df c).Sublist df := by
    unfold preFilter statusFilter
    split
    · exact (List.filter_sublist _).trans h2
    · split
      · exact (List.filter_sublist _).trans h2
      · exact h2
  unfold applyFilter
  split
  · exact h3
  · exact (List.filter_sublist _).trans h3

/-- C4: `averageBaseline` is the size of the snapshot divided by the number
of distinct dates, is `0` exactly when that count is zero (equivalently,
when the snapshot is empty), and — being a total function into `ℚ` — the
guarded division never produces an error or `NaN`. -/
theorem average_baseline_guarded (df : List Record) :
    avg_count df = (if (distinctDates df).length = 0 then 0
      else (df.length : ℚ) / ((distinctDates df).length : ℚ)) ∧
    ((distinctDates df).length = 0 ↔ df = []) := by
  constructor
  · unfold avg_count
    rcases Nat.eq_zero_or_pos (distinctDates df).length with h | h
    · rw [if_neg (by omega), if_pos h]
    · rw [if_pos h, if_neg (by omega)]
  · rw [List.length_eq_zero]
    unfold distinctDates
    rw [firstKeys_eq_nil_iff]
    simp

theorem avg_count_nonneg (df : List Record) : 0 ≤ avg_count df := by
  unfold avg_count
  split
  · positivity
  · exact le_refl 0

/-- C5: the delta KPI is the selected count minus the floor of the average
baseline (Python's `int()` truncates toward zero, which on the non-negative
baseline is the floor); on the ten-record, two-date snapshot with a
three-record subset it evaluates to `3 - 5 = -2`. -/
theorem delta_vs_floor_baseline :
    (∀ (df : List Record) (c : Criteria),
      deltaVal df (applyFilter df c) = ((applyFilter df c).length : ℤ) - ⌊avg_count df⌋) ∧
    (applyFilter exSnapshot10 exCritHigh).length = 3 ∧
    avg_count exSnapshot10 = 5 ∧
    deltaVal exSnapshot10 (applyFilter exSnapshot10 exCritHigh) = -2 := by
  have hgen : ∀ (df : List Record) (c : Criteria),
      deltaVal df (applyFilter df c) = ((applyFilter df c).length : ℤ) - ⌊avg_count df⌋ := by
    intro df c
    unfold deltaVal pyInt
    rw [if_pos (avg_count_nonneg df)]
  have hd : distinctDates exSnapshot10 = ["2024-01-01", "2024-01-02"] := by decide
  have h3 : (applyFilter exSnapshot10 exCritHigh).length = 3 := by decide
  have hlen : exSnapshot10.length = 10 := rfl
  have h5 : avg_count exSnapshot10 = 5 := by
    unfold avg_count
    rw [hd, hlen]
    norm_num
  refine ⟨hgen, h3, h5, ?_⟩
  rw [hgen exSnapshot10 exCritHigh, h3, h5]
  rw [show ((5 : ℚ)) = (((5 : ℤ) : ℚ)) from by norm_num, Int.floor_intCast]
  norm_num

/-- C10: one full rerun of the dashboard body is a pure function of the
loaded snapshot and the widget state: the record store it hands on equals
the input snapshot, and every downstream output (table, export, summary) is
a fresh view computed from that same snapshot — nothing is mutated. -/
theorem pipeline_leaves_snapshot_unchanged (df : List Record) (c : Criteria) :
    (runDashboard df c).snapshot = df ∧
    (runDashboard df c).filtered = applyFilter df c ∧
    (runDashboard df c).tableView = applyFilter df c ∧
    (runDashboard df c).csv = encodeCsv (applyFilter df c) ∧
    (runDashboard df c).summary = summaryText (applyFilter df c) :=
  ⟨rfl, rfl, rfl, rfl, rfl⟩

/-- C1 (amended): a record passes the free-text search iff the lowercase
query is a substring of the lowercase rendering of the WHOLE row — the
pandas `str(row)` text, which also contains the field names and a dtype
footer — and an empty query keeps every record that passes the other
predicates. -/
theorem search_filters_by_row_rendering (df : List Record) (c : Criteria) (r : Record) :
    r ∈ applyFilter df c ↔
      r ∈ preFilter df c ∧ (c.search_query = "" ∨ searchHit c.search_query r = true) := by
  unfold applyFilter
  by_cases h : c.search_query = ""
  · simp [h]
  · simp [h, List.mem_filter]

/-- C1 counterexample: with the non-empty query `severity`, a record none of
whose rendered fields contains the query is nevertheless kept, because
`str(row)` also renders the field names.  This refutes the claimed
"substring of at least one field" iff. -/
theorem search_fieldwise_iff_fails :
    exCritQuery.search_query ≠ "" ∧
    applyFilter [exRecord] exCritQuery = [exRecord] ∧
    specFieldMatch exCritQuery.search_query exRecord = false :=
  ⟨by decide, by decide, by decide⟩

/-- C2 (evaluation at the failing input): with an empty severity selection,
the filtered subset is empty and the two mean KPIs render as `nan%` / `nanm`
— pandas' `NaN` formatted by `.1f` — instead of the explicit no-data marker
the spec requires. -/
theorem empty_subset_metrics_render_nan :
    applyFilter [exRecord] exCritEmptySev = [] ∧
    avgConfidenceText (applyFilter [exRecord] exCritEmptySev) = "nan%" ∧
    avgMitigationText (applyFilter [exRecord] exCritEmptySev) = "nanm" :=
  ⟨by decide, by decide, by decide⟩

/-! ### Helper lemmas for the mode computation (claim C6) -/

theorem find?_filter_bne {α : Type} [DecidableEq α] (p : α → Bool) (a : α)
    (hpa : p a = false) : ∀ l : List α, (l.filter (fun b => b != a)).find? p = l.find? p := by
  intro l
  induction l with
  | nil => rfl
  | cons b t ih =>
    by_cases hba : b = a
    · subst hba
      rw [List.filter_cons, if_neg (by simp), ih,
        List.find?_cons_of_neg _ (by simp [hpa])]
    · rw [List.filter_cons, if_pos (by simp [hba])]
      cases hpb : p b
      · rw [List.find?_cons_of_neg _ (by simp [hpb]),
          List.find?_cons_of_neg _ (by simp [hpb]), ih]
      · rw [List.find?_cons_of_pos _ hpb, List.find?_cons_of_pos _ hpb]

theorem find?_firstKeys_aux {α : Type} [DecidableEq α] (p : α → Bool) :
    ∀ (n : ℕ) (l : List α), l.length ≤ n → (firstKeys l).find? p = l.find? p := by
  intro n
  induction n with
  | zero =>
    intro l hl
    have hnil : l = [] := List.eq_nil_of_length_eq_zero (Nat.le_zero.mp hl)
    subst hnil; rfl
  | succ n ih =>
    intro l hl
    cases l with
    | nil => rfl
    | cons a t =>
      rw [firstKeys_cons]
      cases hpa : p a
      · rw [List.find?_cons_of_neg _ (by simp [hpa]),
          List.find?_cons_of_neg _ (by simp [hpa]),
          ih _ (le_trans (List.length_filter_le _ _) (Nat.le_of_succ_le_succ hl)),
          find?_filter_bne p a hpa t]
      · rw [List.find?_cons_of_pos _ hpa, List.find?_cons_of_pos _ hpa]

theorem find?_firstKeys {α : Type} [DecidableEq α] (p : α → Bool) (l : List α) :
    (firstKeys l).find? p = l.find? p :=
  find?_firstKeys_aux p l.length l le_rfl

theorem all_filter_bne {α : Type} [DecidableEq α] (p : α → Bool) (a : α)
    (hpa : p a = true) : ∀ l : List α, (l.filter (fun b => b != a)).all p = l.all p := by
  intro l
  induction l with
  | nil => rfl
  | cons b t ih =>
    by_cases hba : b = a
    · subst hba
      rw [List.filter_cons, if_neg (by simp), ih, List.all_cons, hpa, Bool.true_and]
    · rw [List.filter_cons, if_pos (by simp [hba]), List.all_cons, List.all_cons, ih]

theorem all_firstKeys_aux {α : Type} [DecidableEq α] (p : α → Bool) :
    ∀ (n : ℕ) (l : List α), l.length ≤ n → (firstKeys l).all p = l.all p := by
  intro n
  induction n with
  | zero =>
    intro l hl
    have hnil : l = [] := List.eq_nil_of_length_eq_zero (Nat.le_zero.mp hl)
    subst hnil; rfl
  | succ n ih =>
    intro l hl
    cases l with
    | nil => rfl
    | cons a t =>
      rw [firstKeys_cons, List.all_cons, List.all_cons]
      cases hpa : p a
      · rw [Bool.false_and, Bool.false_and]
      · rw [Bool.true_and, Bool.true_and,
          ih _ (le_trans (List.length_filter_le _ _) (Nat.le_of_succ_le_succ hl)),
          all_filter_bne p a hpa t]

theorem all_firstKeys {α : Type} [DecidableEq α] (p : α → Bool) (l : List α) :
    (firstKeys l).all p = l.all p :=
  all_firstKeys_aux p l.length l le_rfl

theorem exists_max_image {α : Type} (f : α → ℕ) :
    ∀ l : List α, l ≠ [] → ∃ k, k ∈ l ∧ ∀ j ∈ l, f j ≤ f k := by
  intro l
  induction l with
  | nil => intro h; exact absurd rfl h
  | cons a t ih =>
    intro _
    cases t with
    | nil =>
      refine ⟨a, List.mem_singleton_self a, ?_⟩
      intro j hj
      rw [List.mem_singleton] at hj
      subst hj; exact le_rfl
    | cons b u =>
      obtain ⟨k, hk, hmax⟩ := ih (by simp)
      by_cases hak : f a ≤ f k
      · refine ⟨k, List.mem_cons_of_mem a hk, ?_⟩
        intro j hj
        rcases List.mem_cons.mp hj with h | h
        · subst h; exact hak
        · exact hmax j h
      · refine ⟨a, List.mem_cons_self a _, ?_⟩
        intro j hj
        rcases List.mem_cons.mp hj with h | h
        · subst h; exact le_rfl
        · exact le_trans (hmax j h) (le_of_not_le hak)

theorem all_map_comp {α β : Type} (f : α → β) (p : β → Bool) :
    ∀ l : List α, (l.map f).all p = l.all (fun x => p (f x)) := by
  intro l
  induction l with
  | nil => rfl
  | cons a t ih => rw [List.map_cons, List.all_cons, List.all_cons, ih]

theorem idxmax_value_counts {α : Type} [DecidableEq α] (l : List α) :
    idxmax? (value_counts l) = specMode l := by
  unfold idxmax? value_counts specMode
  rw [List.find?_map, Option.map_map]
  have hpred : ((fun p : α × ℕ =>
        ((firstKeys l).map (fun k => (k, l.count k))).all (fun q => decide (q.2 ≤ p.2))) ∘
        (fun k => (k, l.count k)))
      = fun k => l.all (fun j => decide (l.count j ≤ l.count k)) := by
    funext k
    show ((firstKeys l).map (fun j => (j, l.count j))).all (fun q => decide (q.2 ≤ l.count k))
        = l.all (fun j => decide (l.count j ≤ l.count k))
    rw [all_map_comp]
    exact all_firstKeys _ l
  rw [hpred]
  have hfst : ((Prod.fst ∘ fun k : α => (k, l.count k)) : α → α) = id := rfl
  rw [hfst, Option.map_id, id_eq]
  exact find?_firstKeys _ l

theorem specMode_of_ne_nil {α : Type} [DecidableEq α] (l : List α) (h : l ≠ []) :
    ∃ t, specMode l = some t := by
  obtain ⟨k, hk, hmax⟩ := exists_max_image (fun j => l.count j) l h
  have hex : ∃ x, x ∈ l ∧ (l.all (fun j => decide (l.count j ≤ l.count x))) = true := by
    refine ⟨k, hk, ?_⟩
    simp only [List.all_eq_true, decide_eq_true_eq]
    exact fun j hj => hmax j hj
  obtain ⟨t, ht⟩ := Option.isSome_iff_exists.mp (List.find?_isSome.mpr hex)
  exact ⟨t, ht⟩

/-- C6: for a non-empty subset, the summary names the threat category the
code's `value_counts().idxmax()` selects, and that category is exactly the
spec's mode — the first-encountered category of maximal count in the
subset's order; for an empty subset the summary is the distinct "no
incidents match" text and no mode is involved. -/
theorem summary_names_first_encountered_mode (sub : List Record) :
    (sub = [] → summaryText sub =
      "No incidents match the selected filters. System appears clear.") ∧
    (sub ≠ [] → ∃ t, specMode (sub.map (fun r => r.threat_type)) = some t ∧
      top_threat sub = some t ∧
      summaryText sub =
        "**Automated Summary:** The primary threat vector currently identified is **"
          ++ t ++ "**. We recommend immediate audit of logs associated with this activity.") := by
  constructor
  · intro h; subst h; rfl
  · intro h
    have hmap : sub.map (fun r => r.threat_type) ≠ [] := by simpa using h
    obtain ⟨t, ht⟩ := specMode_of_ne_nil _ hmap
    have htop : top_threat sub = some t := by
      unfold top_threat
      rw [idxmax_value_counts]
      exact ht
    refine ⟨t, ht, htop, ?_⟩
    unfold summaryText
    rw [if_pos (List.length_pos.mpr h), htop]

/-- Witness for C6: both branches of the theorem applied at concrete
subsets. -/
theorem summary_mode_witness :
    summaryText [] = "No incidents match the selected filters. System appears clear." ∧
    (([exRecord] : List Record) ≠ [] ∧
      ∃ t, specMode ([exRecord].map (fun r => r.threat_type)) = some t ∧
        top_threat [exRecord] = some t ∧
        summaryText [exRecord] =
          "**Automated Summary:** The primary threat vector currently identified is **"
            ++ t ++ "**. We recommend immediate audit of logs associated with this activity.") :=
  ⟨(summary_names_first_encountered_mode []).1 rfl,
   by decide,
   (summary_names_first_encountered_mode [exRecord]).2 (by decide)⟩

/-! ### Helper lemmas for the CSV round trip (claim C9) -/

theorem digitVal_digitChar (d : ℕ) (h : d < 10) : digitVal (digitChar d) = some d := by
  interval_cases d <;> decide

theorem foldl_digitStep_natCharsAux :
    ∀ (fuel n : ℕ), n < fuel → List.foldl digitStep (some 0) (natCharsAux fuel n) = some n := by
  intro fuel
  induction fuel with
  | zero => intro n h; omega
  | succ fuel ih =>
    intro n h
    have hunf : natCharsAux (fuel + 1) n = if n < 10 then [digitChar n]
        else natCharsAux fuel (n / 10) ++ [digitChar (n % 10)] := rfl
    by_cases h10 : n < 10
    · rw [hunf, if_pos h10]
      show (digitVal (digitChar n)).map (fun d => 10 * 0 + d) = some n
      rw [digitVal_digitChar n h10]
      show some (10 * 0 + n) = some n
      congr 1
      omega
    · rw [hunf, if_neg h10, List.foldl_append]
      rw [ih (n / 10) (by omega)]
      show (digitVal (digitChar (n % 10))).map (fun d => 10 * (n / 10) + d) = some n
      rw [digitVal_digitChar (n % 10) (by omega)]
      show some (10 * (n / 10) + n % 10) = some n
      congr 1
      omega

theorem natChars_ne_nil (n : ℕ) : natChars n ≠ [] := by
  unfold natChars
  have hunf : natCharsAux (n + 1) n = if n < 10 then [digitChar n]
      else natCharsAux n (n / 10) ++ [digitChar (n % 10)] := rfl
  rw [hunf]
  split
  · simp
  · simp

theorem natParse_natChars (n : ℕ) : natParse (natChars n) = some n := by
  unfold natParse
  rw [if_neg (by simpa using natChars_ne_nil n)]
  exact foldl_digitStep_natCharsAux (n + 1) n (by omega)

theorem decodeRow_renderRow (r : Record) : decodeRow (renderRow r) = some r := by
  have h1 : natParse (natStr r.hour).data = some r.hour := natParse_natChars r.hour
  have h2 : natParse (natStr r.confidence_score).data = some r.confidence_score :=
    natParse_natChars r.confidence_score
  have h3 : natParse (natStr r.response_time_minutes).data = some r.response_time_minutes :=
    natParse_natChars r.response_time_minutes
  have h4 : parseBool (boolStr r.is_resolved).data = some r.is_resolved := by
    cases r.is_resolved <;> rfl
  show (match natParse (natStr r.hour).data, natParse (natStr r.confidence_score).data,
      natParse (natStr r.response_time_minutes).data, parseBool (boolStr r.is_resolved).data with
    | some hh, some cc, some rr, some bb =>
      some (⟨String.mk r.timestamp.data, String.mk r.date.data, hh, String.mk r.severity.data,
        String.mk r.affected_system.data, String.mk r.threat_type.data, cc, rr, bb,
        String.mk r.source_ip.data⟩ : Record)
    | _, _, _, _ => none) = some r
  rw [h1, h2, h3, h4]

theorem decodeRows_map : ∀ l : List Record, decodeRows (l.map renderRow) = some l := by
  intro l
  induction l with
  | nil => rfl
  | cons r t ih =>
    show (decodeRow (renderRow r)).bind
        (fun a => (decodeRows (t.map renderRow)).map (fun rs => a :: rs)) = some (r :: t)
    rw [decodeRow_renderRow, ih]
    rfl

theorem parseQuotedField_cons_ne (c : Char) (hc : ¬ c = '"') (X : List Char) (hX : X ≠ []) :
    parseQuotedField (c :: X) = (parseQuotedField X).map (fun p => (c :: p.1, p.2)) := by
  cases X with
  | nil => exact absurd rfl hX
  | cons e es => rw [parseQuotedField.eq_2, if_neg hc]

theorem parseQuotedField_escape (s : List Char) :
    ∀ rest : List Char, rest.head? ≠ some '"' →
      parseQuotedField (csvEscape s ++ '"' :: rest) = some (s, rest) := by
  induction s with
  | nil =>
    intro rest hrest
    show parseQuotedField ('"' :: rest) = some ([], rest)
    cases rest with
    | nil => rfl
    | cons c2 cs2 =>
      have hc2 : ¬ c2 = '"' := fun h => hrest (by rw [h]; rfl)
      simp [parseQuotedField, hc2]
  | cons c s ih =>
    intro rest hrest
    by_cases hc : c = '"'
    · subst hc
      rw [show csvEscape ('"' :: s) = '"' :: '"' :: csvEscape s from by simp [csvEscape]]
      rw [List.cons_append, List.cons_append]
      rw [show parseQuotedField ('"' :: '"' :: (csvEscape s ++ '"' :: rest))
          = (parseQuotedField (csvEscape s ++ '"' :: rest)).map (fun p => ('"' :: p.1, p.2)) from by
        simp [parseQuotedField]]
      rw [ih rest hrest]
      rfl
    · rw [show csvEscape (c :: s) = c :: csvEscape s from by simp [csvEscape, hc]]
      rw [List.cons_append]
      rw [parseQuotedField_cons_ne c hc (csvEscape s ++ '"' :: rest) (by simp)]
      rw [ih rest hrest]
      rfl

theorem parseRawField_clean (s : List Char) :
    ∀ rest : List Char, (∀ c ∈ s, ¬(c = ',' ∨ c = '\n')) →
      (rest = [] ∨ rest.head? = some ',' ∨ rest.head? = some '\n') →
      parseRawField (s ++ rest) = (s, rest) := by
  induction s with
  | nil =>
    intro rest hs hrest
    rcases hrest with h | h | h
    · subst h; rfl
    · cases rest with
      | nil => simp at h
      | cons r0 rt =>
        have h0 : r0 = ',' := by simpa using h
        subst h0
        rfl
    · cases rest with
      | nil => simp at h
      | cons r0 rt =>
        have h0 : r0 = '\n' := by simpa using h
        subst h0
        rfl
  | cons c cs ih =>
    intro rest hs hrest
    have hc : ¬(c = ',' ∨ c = '\n') := hs c (List.mem_cons_self c cs)
    rw [List.cons_append]
    rw [show parseRawField (c :: (cs ++ rest))
        = (c :: (parseRawField (cs ++ rest)).1, (parseRawField (cs ++ rest)).2) from by
      simp [parseRawField, hc]]
    rw [ih rest (fun x hx => hs x (List.mem_cons_of_mem c hx)) hrest]

theorem parseField_encode (s : List Char) (rest : List Char)
    (hrest : rest = [] ∨ rest.head? = some ',' ∨ rest.head? = some '\n') :
    parseField (csvField s ++ rest) = some (s, rest) := by
  by_cases hq : csvNeedsQuote s
  · rw [show csvField s = '"' :: (csvEscape s ++ ['"']) from by simp [csvField, hq]]
    rw [List.cons_append, List.append_assoc]
    rw [show ((['"'] : List Char) ++ rest) = '"' :: rest from rfl]
    rw [show parseField ('"' :: (csvEscape s ++ '"' :: rest))
        = parseQuotedField (csvEscape s ++ '"' :: rest) from by simp [parseField]]
    apply parseQuotedField_escape
    rcases hrest with h | h | h
    · subst h; simp
    · rw [h]; decide
    · rw [h]; decide
  · have hsafe : ∀ x ∈ s, ¬(x = ',' ∨ x = '"' ∨ x = '\n' ∨ x = '\r') := by
      intro x hx hcon
      apply hq
      simp only [csvNeedsQuote, csvSpecial, List.any_eq_true]
      refine ⟨x, hx, ?_⟩
      rcases hcon with h | h | h | h <;> simp [h]
    rw [show csvField s = s from by simp [csvField, hq]]
    cases s with
    | nil =>
      rcases hrest with h | h | h
      · subst h; rfl
      · cases rest with
        | nil => simp at h
        | cons r0 rt =>
          have h0 : r0 = ',' := by simpa using h
          subst h0
          rfl
      · cases rest with
        | nil => simp at h
        | cons r0 rt =>
          have h0 : r0 = '\n' := by simpa using h
          subst h0
          rfl
    | cons c cs =>
      have hc : ¬ c = '"' := fun hcq => hsafe c (List.mem_cons_self c cs) (Or.inr (Or.inl hcq))
      have hs2 : ∀ x ∈ c :: cs, ¬(x = ',' ∨ x = '\n') := by
        intro x hx hcon
        rcases hcon with h | h
        · exact hsafe x hx (Or.inl h)
        · exact hsafe x hx (Or.inr (Or.inr (Or.inl h)))
      rw [List.cons_append]
      rw [show parseField (c :: (cs ++ rest)) = some (parseRawField (c :: (cs ++ rest))) from by
        simp [parseField, hc]]
      rw [← List.cons_append]
      rw [parseRawField_clean (c :: cs) rest hs2 hrest]

theorem parseFieldsAux_row :
    ∀ (fs : List (List Char)) (fuel : ℕ) (rest : List Char), fs ≠ [] → fs.length ≤ fuel →
      (rest = [] ∨ rest.head? = some '\n') →
      parseFieldsAux fuel (csvRow fs ++ rest) = some (fs, rest) := by
  intro fs
  induction fs with
  | nil => intro fuel rest h _ _; exact absurd rfl h
  | cons f fs ih =>
    intro fuel rest hne hfuel hrest
    cases fuel with
    | zero => simp at hfuel
    | succ fuel =>
      cases fs with
      | nil =>
        have hpf : parseField (csvField f ++ rest) = some (f, rest) :=
          parseField_encode f rest (by
            rcases hrest with h | h
            · exact Or.inl h
            · exact Or.inr (Or.inr h))
        rcases hrest with h | h
        · subst h
          simp only [csvRow, parseFieldsAux]
          rw [hpf]
          rfl
        · cases rest with
          | nil => simp at h
          | cons r0 rt =>
            have h0 : r0 = '\n' := by simpa using h
            subst h0
            simp only [csvRow, parseFieldsAux]
            rw [hpf]
            rfl
      | cons g gs =>
        have heq : csvRow (f :: g :: gs) ++ rest
            = csvField f ++ (',' :: (csvRow (g :: gs) ++ rest)) := by
          show (csvField f ++ ',' :: csvRow (g :: gs)) ++ rest = _
          simp [List.append_assoc]
        rw [heq]
        have hpf : parseField (csvField f ++ (',' :: (csvRow (g :: gs) ++ rest)))
            = some (f, ',' :: (csvRow (g :: gs) ++ rest)) :=
          parseField_encode f _ (Or.inr (Or.inl rfl))
        simp only [parseFieldsAux]
        rw [hpf]
        show (parseFieldsAux fuel (csvRow (g :: gs) ++ rest)).map (fun q => (f :: q.1, q.2))
            = some (f :: g :: gs, rest)
        rw [ih fuel rest (by simp) (by
          simp only [List.length_cons] at hfuel ⊢
          omega) hrest]
        rfl

theorem csvRow_length (fs : List (List Char)) : fs.length ≤ (csvRow fs).length + 1 := by
  induction fs with
  | nil => simp [csvRow]
  | cons f fs ih =>
    cases fs with
    | nil => simp [csvRow]
    | cons g gs =>
      rw [show csvRow (f :: g :: gs) = csvField f ++ ',' :: csvRow (g :: gs) from rfl]
      simp only [List.length_cons, List.length_append] at ih ⊢
      omega

theorem csvTable_length (rows : List (List (List Char))) :
    rows.length ≤ (csvTable rows).length := by
  induction rows with
  | nil => simp [csvTable]
  | cons r rs ih =>
    rw [show csvTable (r :: rs) = csvRow r ++ '\n' :: csvTable rs from rfl]
    simp only [List.length_cons, List.length_append]
    omega

theorem parseRowsAux_table :
    ∀ (rows : List (List (List Char))) (fuel : ℕ), (∀ r ∈ rows, r ≠ []) →
      rows.length ≤ fuel → parseRowsAux fuel (csvTable rows) = some rows := by
  intro rows
  induction rows with
  | nil =>
    intro fuel _ _
    cases fuel with
    | zero => rfl
    | succ fuel => rfl
  | cons r rs ih =>
    intro fuel hne hfuel
    cases fuel with
    | zero => simp at hfuel
    | succ fuel =>
      rw [show csvTable (r :: rs) = csvRow r ++ '\n' :: csvTable rs from rfl]
      have hnonempty : (csvRow r ++ '\n' :: csvTable rs).isEmpty = false := by
        cases hcr : csvRow r <;> rfl
      have hrl : r.length ≤ (csvRow r ++ '\n' :: csvTable rs).length + 1 := by
        have hb := csvRow_length r
        simp only [List.length_append, List.length_cons]
        omega
      have hparse := parseFieldsAux_row r ((csvRow r ++ '\n' :: csvTable rs).length + 1)
        ('\n' :: csvTable rs) (hne r (List.mem_cons_self r rs)) hrl (Or.inr rfl)
      simp only [parseRowsAux]
      rw [if_neg (by rw [hnonempty]; exact Bool.false_ne_true)]
      rw [hparse]
      show (parseRowsAux fuel (csvTable rs)).map (fun rs' => r :: rs') = some (r :: rs)
      rw [ih fuel (fun x hx => hne x (List.mem_cons_of_mem r hx)) (by
        simp only [List.length_cons] at hfuel
        omega)]
      rfl

/-- C9: the export writes one header row holding every field name in the
canonical column order, then one row per record in the subset's order, and
re-parsing the exported bytes under the same column contract reproduces the
subset exactly, content and order (encoding is a pure function, hence
deterministic). -/
theorem csv_export_roundtrip (subset : List Record) :
    parseCsvRows (encodeCsv subset) = some (canonicalHeader :: subset.map renderRow) ∧
    decodeCsv (encodeCsv subset) = some subset := by
  have hrows : ∀ r ∈ canonicalHeader :: subset.map renderRow, r ≠ [] := by
    intro r hr
    rcases List.mem_cons.mp hr with h | h
    · subst h; simp [canonicalHeader, fieldNames]
    · obtain ⟨x, hx, rfl⟩ := List.mem_map.mp h
      simp [renderRow, renderFields]
  have hlen : (canonicalHeader :: subset.map renderRow).length ≤
      (csvTable (canonicalHeader :: subset.map renderRow)).length + 1 :=
    le_trans (csvTable_length _) (Nat.le_succ _)
  have h1 : parseCsvRows (encodeCsv subset)
      = some (canonicalHeader :: subset.map renderRow) := by
    show parseRowsAux ((csvTable (canonicalHeader :: subset.map renderRow)).length + 1)
        (csvTable (canonicalHeader :: subset.map renderRow))
        = some (canonicalHeader :: subset.map renderRow)
    exact parseRowsAux_table _ _ hrows hlen
  refine ⟨h1, ?_⟩
  unfold decodeCsv
  rw [h1]
  show (if canonicalHeader = canonicalHeader then decodeRows (subset.map renderRow)
      else none) = some subset
  rw [if_pos rfl]
  exact decodeRows_map subset
